import Mathlib

/-!
# Verification of the NerdQAxePlus hashrate monitor and HTTP OTP rate limiter

Shallow embedding of `src/main/tasks/hashrate_monitor_task.h` (the sliding
window median filter `Median<N>` and the `HashrateMonitor` interface) and of
`src/main/http_server/http_utils.cpp` (OTP rate limiting), together with
proofs of the specified properties.

`float`/`double` values of the source are modelled as rationals (`ℚ`): the
quantities involved (counter deltas, millisecond intervals, scale factors)
and the operations the claims exercise (comparison, selection by sorting,
addition, division by non-zero values) are exact, and no NaN/inf values
arise in the modelled domain.
-/

namespace HashrateMonitorModel

/-! ## Sliding-window median filter (`Median<N>`, header lines 15–51)

The source keeps a circular buffer `m_buf[N]` and a write index `m_idx`.
`update` overwrites the slot at `m_idx`, advances `m_idx` modulo `N`, copies
the buffer into a scratch array, insertion sorts it ascending (shifting
elements while `tmp[j-1] > key`), and returns the middle element `tmp[N/2]`.
-/

/-- One step of the source's insertion sort: insert `key` into an already
sorted list. The inner `while (j > 0 && tmp[j-1] > key)` loop shifts exactly
the elements strictly greater than `key`, so `key` ends up before the first
element strictly greater than it. -/
def srcInsert (key : ℚ) : List ℚ → List ℚ
  | [] => [key]
  | b :: l => if b > key then key :: b :: l else b :: srcInsert key l

/-- The source's insertion sort (header lines 39–47): fold over the buffer,
inserting each element into the sorted prefix. -/
def srcSort (l : List ℚ) : List ℚ :=
  l.foldl (fun acc x => srcInsert x acc) []

/-- State of `Median<N>`: the circular buffer `m_buf` (length `N`) and the
write index `m_idx`. -/
structure Median where
  buf : List ℚ
  idx : ℕ
  deriving DecidableEq, Repr

/-- The constructor `Median(float init = float{})` (header lines 22–26):
every buffer slot starts at `init`, the index at `0`. -/
def Median.mk0 (n : ℕ) (init : ℚ) : Median :=
  ⟨List.replicate n init, 0⟩

/-- Source `Median<N>::update` (header lines 28–50): overwrite the oldest slot,
advance the index modulo `N`, sort a copy of the buffer and return the
middle element `tmp[N/2]`. Returns the median value together with the new
filter state. -/
def Median.update (m : Median) (value : ℚ) : ℚ × Median :=
  let buf := m.buf.set m.idx value
  let idx := (m.idx + 1) % buf.length
  ((srcSort buf).getD (buf.length / 2) 0, ⟨buf, idx⟩)

/-- The state after pushing one value. -/
def Median.push (m : Median) (value : ℚ) : Median := (m.update value).2

/-- The value returned by one update. -/
def Median.out (m : Median) (value : ℚ) : ℚ := (m.update value).1

/-- The mathematical median of a list of an odd number of values: the middle
element of the values arranged in ascending order. (Stated with Mathlib's
`insertionSort`; for a linear order any sorted arrangement is the same.) -/
def mathMedian (l : List ℚ) : ℚ :=
  (l.insertionSort (· ≤ ·)).getD (l.length / 2) 0

theorem srcInsert_perm (key : ℚ) (l : List ℚ) :
    List.Perm (srcInsert key l) (key :: l) := by
  induction l with
  | nil => exact List.Perm.refl _
  | cons b t ih =>
      unfold srcInsert
      by_cases h : b > key
      · rw [if_pos h]
      · rw [if_neg h]
        exact (ih.cons b).trans (List.Perm.swap key b t)

theorem srcInsert_sorted (key : ℚ) (l : List ℚ) (hl : l.Sorted (· ≤ ·)) :
    (srcInsert key l).Sorted (· ≤ ·) := by
  induction l with
  | nil => simp [srcInsert]
  | cons b t ih =>
      unfold srcInsert
      by_cases h : b > key
      · rw [if_pos h]
        refine List.sorted_cons.mpr ⟨?_, hl⟩
        intro y hy
        rcases List.mem_cons.mp hy with rfl | hy
        · exact le_of_lt h
        · exact le_trans (le_of_lt h) (List.rel_of_sorted_cons hl y hy)
      · rw [if_neg h]
        rw [List.sorted_cons] at hl
        refine List.sorted_cons.mpr ⟨?_, ih hl.2⟩
        intro y hy
        rcases List.mem_cons.mp ((srcInsert_perm key t).mem_iff.mp hy) with rfl | hy
        · exact le_of_not_lt h
        · exact hl.1 y hy

theorem srcSort_go_perm (l acc : List ℚ) :
    List.Perm (l.foldl (fun s x => srcInsert x s) acc) (l ++ acc) := by
  induction l generalizing acc with
  | nil => simp
  | cons b t ih =>
      refine ((ih (srcInsert b acc)).trans ?_)
      refine (List.Perm.append_left t (srcInsert_perm b acc)).trans ?_
      exact @List.perm_middle ℚ b t acc

theorem srcSort_perm (l : List ℚ) : List.Perm (srcSort l) l :=
  (srcSort_go_perm l []).trans (by simp)

theorem srcSort_go_sorted (l acc : List ℚ) (h : acc.Sorted (· ≤ ·)) :
    (l.foldl (fun s x => srcInsert x s) acc).Sorted (· ≤ ·) := by
  induction l generalizing acc with
  | nil => exact h
  | cons b t ih => exact ih _ (srcInsert_sorted b acc h)

theorem srcSort_sorted (l : List ℚ) : (srcSort l).Sorted (· ≤ ·) :=
  srcSort_go_sorted l [] (by simp)

/-- The source's insertion sort agrees with Mathlib's: both are sorted
permutations of the input, and over a linear order these coincide. -/
theorem srcSort_eq_insertionSort (l : List ℚ) :
    srcSort l = l.insertionSort (· ≤ ·) := by
  refine List.eq_of_perm_of_sorted ?_ (srcSort_sorted l) ?_
  · exact (srcSort_perm l).trans (List.perm_insertionSort (· ≤ ·) l).symm
  · exact List.sorted_insertionSort (· ≤ ·) l

theorem mathMedian_perm {l l' : List ℚ} (h : List.Perm l l') :
    mathMedian l = mathMedian l' := by
  unfold mathMedian
  rw [h.length_eq,
    List.eq_of_perm_of_sorted
      (((List.perm_insertionSort (· ≤ ·) l).trans h).trans
        (List.perm_insertionSort (· ≤ ·) l').symm)
      (List.sorted_insertionSort (· ≤ ·) l) (List.sorted_insertionSort (· ≤ ·) l')]

/-- Helper: the value returned by `Median.update` is an element of the new
buffer (the sort is a permutation and `N/2 < N`). -/
theorem median_update_mem (m : Median) (v : ℚ) (h : 0 < m.buf.length) :
    (m.update v).1 ∈ (m.update v).2.buf := by
  have hlen : (m.buf.set m.idx v).length = m.buf.length := by simp
  have hmid : (m.buf.set m.idx v).length / 2 < (m.buf.set m.idx v).length := by
    rw [hlen]; exact Nat.div_lt_self h (by norm_num)
  have hsortlen : (srcSort (m.buf.set m.idx v)).length = (m.buf.set m.idx v).length :=
    (srcSort_perm _).length_eq
  have hmid' : (m.buf.set m.idx v).length / 2 < (srcSort (m.buf.set m.idx v)).length := by
    rw [hsortlen]; exact hmid
  have hmem : (srcSort (m.buf.set m.idx v)).getD ((m.buf.set m.idx v).length / 2) 0
      ∈ srcSort (m.buf.set m.idx v) := by
    rw [List.getD_eq_getElem _ _ hmid']
    exact List.getElem_mem hmid'
  have := (srcSort_perm (m.buf.set m.idx v)).mem_iff.mp hmem
  simpa [Median.update] using this

/-- Scratch check of the filter on concrete data. -/
example : ((Median.mk0 5 0).push 1).buf = [1, 0, 0, 0, 0] := by decide

/-- C1: for any 5 values pushed into a fresh `Median<5>`, the 5th update
returns the mathematical median of exactly those 5 values; the 6th push
evicts the 1st (oldest) value and the 6th update returns the median of
values 2 through 6. -/
theorem median5_window (init v1 v2 v3 v4 v5 v6 : ℚ) :
    (((((Median.mk0 5 init).push v1).push v2).push v3).push v4).out v5
        = mathMedian [v1, v2, v3, v4, v5] ∧
    ((((((Median.mk0 5 init).push v1).push v2).push v3).push v4).push v5).out v6
        = mathMedian [v2, v3, v4, v5, v6] := by
  constructor
  · simp [Median.mk0, Median.push, Median.out, Median.update, mathMedian,
      srcSort_eq_insertionSort, List.replicate]
  · have h2 :
        ((((((Median.mk0 5 init).push v1).push v2).push v3).push v4).push v5).out v6
          = mathMedian [v6, v2, v3, v4, v5] := by
      simp [Median.mk0, Median.push, Median.out, Median.update, mathMedian,
        srcSort_eq_insertionSort, List.replicate]
    rw [h2]
    exact mathMedian_perm (@List.perm_append_comm ℚ [v6] [v2, v3, v4, v5])

/-- C6: after every update, the value the median filter returns is one of
the values held in the window buffer (selection by rank, never an
interpolation or average). -/
theorem median_update_returns_buffer_element (m : Median) (v : ℚ)
    (h : 0 < m.buf.length) :
    (m.update v).1 ∈ (m.update v).2.buf :=
  median_update_mem m v h

/-- Witness for C6 at a concrete filter state. -/
theorem median_update_returns_buffer_element_witness :
    0 < (Median.mk0 5 0).buf.length ∧
    ((Median.mk0 5 0).update 7).1 ∈ ((Median.mk0 5 0).update 7).2.buf :=
  ⟨by decide, median_update_returns_buffer_element (Median.mk0 5 0) 7 (by decide)⟩

/-! ## Per-chip counter tracker and monitor

`hashrate_monitor_task.h` only declares `start`, `onRegisterReply`,
`publishTotalIfComplete`, `getTotalChipHashrate` and the task loop; their
implementation file is not part of the excerpt, so the dynamics below are
modelled from the specification (§4.2–§4.4), keeping the header's declared
state (`m_asicCount`, `m_prevCounter`, `m_prevResponse`, `m_chipHashrate`,
`m_hashrate`, `m_smoothedHashrate`, `Median<5> m_median`,
`m_period_ms = 1000`) and constants. -/

/-- Modelled from the spec: the wraparound-safe counter delta of §4.2,
`deltaCounter = (counterNow - lastCounter) mod 2^32`, i.e. unsigned 32-bit
subtraction (the implementation of `onRegisterReply` is not under `src/`).
`4294967296 = 2^32`. -/
def deltaCounter (lastCounter counterNow : ℕ) : ℕ :=
  (counterNow % 4294967296 + 4294967296 - lastCounter % 4294967296) % 4294967296

/-- Per-chip tracker state (header fields `m_prevCounter[i]`,
`m_prevResponse[i]`, `m_chipHashrate[i]`): the reference `(lastCounter,
lastTimestampMs)` is `none` before the first reply. -/
structure ChipState where
  ref : Option (ℕ × ℤ)
  lastRateHz : ℚ
  deriving DecidableEq, Repr

/-- Outcome of one tracker intake (§4.2, §7): first-sample, rejected
non-positive interval, or a computed rate. -/
inductive RecordResult
  | noHistory (st : ChipState)
  | nonPositiveInterval
  | ok (rate : ℚ) (st : ChipState)
  deriving DecidableEq, Repr

/-- Modelled from the spec: `recordReply` of §4.2 (the implementation of
`onRegisterReply` is not under `src/`). First reply stores the reference and
yields no rate; a non-advancing timestamp is rejected with state unchanged;
otherwise `rateHz = deltaCounter / (deltaTimeMs/1000)`, scaled by the
counts-per-hash factor and the erratum bias factor, and the new reference
and rate are stored. -/
def recordReply (countsPerHash errata : ℚ) (cs : ChipState)
    (counterNow : ℕ) (nowMs : ℤ) : RecordResult :=
  match cs.ref with
  | none => .noHistory ⟨some (counterNow % 4294967296, nowMs), cs.lastRateHz⟩
  | some (lastC, lastT) =>
      let deltaTimeMs := nowMs - lastT
      if deltaTimeMs ≤ 0 then .nonPositiveInterval
      else
        let rate := (deltaCounter lastC counterNow : ℚ) / ((deltaTimeMs : ℚ) / 1000)
          * countsPerHash * errata
        .ok rate ⟨some (counterNow % 4294967296, nowMs), rate⟩

/-- Modelled from the spec: the monitor's state (§3, header lines 54–108).
`publishes` counts completed publishes, making "a publish occurs" (§8)
observable. -/
structure Monitor where
  started : Bool
  asicCount : ℕ
  countsPerHash : ℚ
  errata : ℚ
  chips : List ChipState
  reported : List Bool
  cycleStartMs : ℤ
  median : Median
  hashrate : ℚ
  smoothedHashrate : ℚ
  periodMs : ℕ
  publishes : ℕ
  deriving DecidableEq, Repr

/-- Modelled from the spec: the state right after a successful `start`
(§4.4): chip count and scale factors captured once, per-chip state
allocated empty, `Median<5>` zero-initialized, period 1000 ms (header line
63). -/
def initialMonitor (chipCount : ℕ) (countsPerHash errata : ℚ) : Monitor where
  started := true
  asicCount := chipCount
  countsPerHash := countsPerHash
  errata := errata
  chips := List.replicate chipCount ⟨none, 0⟩
  reported := List.replicate chipCount false
  cycleStartMs := 0
  median := Median.mk0 5 0
  hashrate := 0
  smoothedHashrate := 0
  periodMs := 1000
  publishes := 0

/-- Modelled from the spec: `start(board, asic)` (§4.4, §7 `StartFailure`):
fails, leaving the state untouched, iff already started or the chip count
is zero; otherwise captures configuration and initializes. -/
def start (m : Monitor) (chipCount : ℕ) (countsPerHash errata : ℚ) :
    Bool × Monitor :=
  if m.started = true ∨ chipCount = 0 then (false, m)
  else (true, initialMonitor chipCount countsPerHash errata)

/-- Modelled from the spec: `getTotalChipHashrate` (header line 88): the sum
of all chips' latest known rate (§4.3). -/
def getTotalChipHashrate (m : Monitor) : ℚ :=
  (m.chips.map ChipState.lastRateHz).sum

/-- Modelled from the spec: the publish step on cycle completion (§4.3,
§4.4): sum the chip rates into `rawTotalHz`, push it through the median
filter into `smoothedTotalHz`, reset the reported mask and start the next
cycle at `nowMs`. -/
def completeCycle (m : Monitor) (nowMs : ℤ) : Monitor :=
  let raw := getTotalChipHashrate m
  let result := m.median.update raw
  { m with
    hashrate := raw
    smoothedHashrate := result.1
    median := result.2
    reported := List.replicate m.asicCount false
    cycleStartMs := nowMs
    publishes := m.publishes + 1 }

/-- Modelled from the spec: `noteChipRate` of §4.3: mark the chip as
reported; if all chips are now marked, or `nowMs - cycleStartMs` exceeds
the configured period, complete the cycle. -/
def noteChipRate (m : Monitor) (chipIndex : ℕ) (nowMs : ℤ) : Monitor :=
  let m' := { m with reported := m.reported.set chipIndex true }
  if m'.reported.all (fun b => b) || (m'.periodMs : ℤ) < nowMs - m'.cycleStartMs
  then completeCycle m' nowMs
  else m'

/-- Modelled from the spec: `onRegisterReply` (§4.4, header line 99): on an
in-range index delegate to the tracker; the first sample only stores its
reference, a non-positive interval is absorbed with no change, and a
computed rate is handed to the cycle aggregator. An out-of-range index is a
defensive no-op (§7 `OutOfRangeError` is never surfaced). -/
def onRegisterReply (m : Monitor) (chipIndex counterNow : ℕ) (nowMs : ℤ) :
    Monitor :=
  if h : chipIndex < m.chips.length then
    match recordReply m.countsPerHash m.errata (m.chips.get ⟨chipIndex, h⟩)
        counterNow nowMs with
    | .noHistory st => { m with chips := m.chips.set chipIndex st }
    | .nonPositiveInterval => m
    | .ok _ st =>
        noteChipRate { m with chips := m.chips.set chipIndex st } chipIndex nowMs
  else m

/-- Modelled from the spec: one tick of the background task (§4.4): force a
cycle-completion check through the same deadline-fallback path as §4.3. -/
def forcedPublish (m : Monitor) (nowMs : ℤ) : Monitor :=
  if (m.periodMs : ℤ) < nowMs - m.cycleStartMs then completeCycle m nowMs else m

/-- An externally triggered monitor event: a register reply dispatched to
`onRegisterReply`, or a background-task tick. -/
inductive Ev
  | reply (chipIndex counterNow : ℕ) (nowMs : ℤ)
  | tick (nowMs : ℤ)

/-- One monitor transition. -/
def step (m : Monitor) : Ev → Monitor
  | .reply i c t => onRegisterReply m i c t
  | .tick t => forcedPublish m t

/-- Run the monitor over a sequence of events. -/
def run (m : Monitor) (evs : List Ev) : Monitor := evs.foldl step m

/-- Scratch check of the tracker on concrete data. -/
example :
    recordReply 1 1 ⟨some (1000, 0), 0⟩ 2000 1000 =
      .ok 1000 ⟨some (2000, 1000), 1000⟩ := by
  norm_num [recordReply, deltaCounter]

/-- C2: the per-chip tracker computes the counter delta by unsigned
subtraction modulo `2^32`: for `lastCounter = 0xFFFFFFF0` followed by
`counterNow = 0x00000010` the delta is `0x20 = 32`, and for any single-wrap
gap `g < 2^32` the delta recovers `g` exactly. -/
theorem deltaCounter_wraparound :
    deltaCounter 0xFFFFFFF0 0x00000010 = 0x20 ∧
    ∀ a g : ℕ, g < 2 ^ 32 → deltaCounter a ((a + g) % 2 ^ 32) = g := by
  constructor
  · decide
  · intro a g hg
    have h32 : (2 : ℕ) ^ 32 = 4294967296 := by norm_num
    rw [h32] at hg ⊢
    unfold deltaCounter
    omega

/-- Witness for C2 at a concrete counter and gap. -/
theorem deltaCounter_wraparound_witness :
    32 < 2 ^ 32 ∧ deltaCounter 4294967280 ((4294967280 + 32) % 2 ^ 32) = 32 :=
  ⟨by norm_num, deltaCounter_wraparound.2 4294967280 32 (by norm_num)⟩

/-- C3: a reply whose timestamp does not advance past the stored one for
that chip is rejected by the tracker as a non-positive interval, and the
intake call leaves the whole monitor state exactly unchanged (no rate is
produced and no error escapes `onRegisterReply`). -/
theorem nonmonotonic_reply_rejected (m : Monitor) (i c : ℕ) (t lastT : ℤ)
    (lastC : ℕ) (h : i < m.chips.length)
    (href : (m.chips.get ⟨i, h⟩).ref = some (lastC, lastT)) (ht : t ≤ lastT) :
    recordReply m.countsPerHash m.errata (m.chips.get ⟨i, h⟩) c t =
      .nonPositiveInterval ∧
    onRegisterReply m i c t = m := by
  have hrec : recordReply m.countsPerHash m.errata (m.chips.get ⟨i, h⟩) c t =
      .nonPositiveInterval := by
    unfold recordReply
    rw [href]
    simp only []
    rw [if_pos (by omega : t - lastT ≤ 0)]
  refine ⟨hrec, ?_⟩
  unfold onRegisterReply
  rw [dif_pos h, hrec]

/-- Witness for C3: a duplicate reply (same timestamp) for a chip holding a
reference at time 1000 is dropped without any state change. -/
theorem nonmonotonic_reply_rejected_witness :
    (0 : ℕ) < (initialMonitor 1 1 1).chips.length ∧
    onRegisterReply
      { initialMonitor 1 1 1 with chips := [⟨some (500, 1000), 0⟩] } 0 600 1000 =
      { initialMonitor 1 1 1 with chips := [⟨some (500, 1000), 0⟩] } :=
  ⟨by decide,
    (nonmonotonic_reply_rejected
      { initialMonitor 1 1 1 with chips := [⟨some (500, 1000), 0⟩] }
      0 600 1000 1000 500 (by decide) (by decide) (by decide)).2⟩

/-- C5: end-to-end with one chip, counts-per-hash factor 1 and erratum
factor 1: the first reply (`counterNow = 1000` at `t = 0` ms) produces no
rate and only stores the reference; the second (`counterNow = 2000` at
`t = 1000` ms) yields a rate of 1000 Hz, completes the 1-chip cycle and
publishes `rawTotalHz = 1000` with `smoothedTotalHz = 0`, the median of
the still mostly zero-initialized window. -/
theorem end_to_end_example :
    onRegisterReply (initialMonitor 1 1 1) 0 1000 0 =
      { initialMonitor 1 1 1 with chips := [⟨some (1000, 0), 0⟩] } ∧
    (onRegisterReply (onRegisterReply (initialMonitor 1 1 1) 0 1000 0)
        0 2000 1000).hashrate = 1000 ∧
    (onRegisterReply (onRegisterReply (initialMonitor 1 1 1) 0 1000 0)
        0 2000 1000).smoothedHashrate = 0 ∧
    (onRegisterReply (onRegisterReply (initialMonitor 1 1 1) 0 1000 0)
        0 2000 1000).publishes = 1 := by
  have h1 : onRegisterReply (initialMonitor 1 1 1) 0 1000 0 =
      { initialMonitor 1 1 1 with chips := [⟨some (1000, 0), 0⟩] } := by
    norm_num [onRegisterReply, recordReply, initialMonitor, List.replicate]
  refine ⟨h1, ?_⟩
  rw [h1]
  norm_num [onRegisterReply, recordReply, deltaCounter, noteChipRate,
    completeCycle, getTotalChipHashrate, Median.update, Median.mk0,
    initialMonitor, List.replicate, srcSort, srcInsert]

/-- Helper: when the tracker produced a rate, `onRegisterReply` stores the
new chip state and hands over to the cycle aggregator. -/
theorem onRegisterReply_ok (m : Monitor) (i c : ℕ) (t : ℤ)
    (hi : i < m.chips.length) (rate : ℚ) (st : ChipState)
    (hrec : recordReply m.countsPerHash m.errata (m.chips.get ⟨i, hi⟩) c t =
      .ok rate st) :
    onRegisterReply m i c t =
      noteChipRate { m with chips := m.chips.set i st } i t := by
  unfold onRegisterReply
  rw [dif_pos hi, hrec]

/-- Helper: the rate the tracker computes from an existing reference when
the timestamp advances. -/
theorem recordReply_ok (f e : ℚ) (a : ℕ) (t0 : ℤ) (r : ℚ) (b : ℕ) (t : ℤ)
    (h : t0 < t) :
    recordReply f e ⟨some (a, t0), r⟩ b t =
      .ok ((deltaCounter a b : ℚ) / (((t - t0 : ℤ) : ℚ) / 1000) * f * e)
        ⟨some (b % 4294967296, t),
          (deltaCounter a b : ℚ) / (((t - t0 : ℤ) : ℚ) / 1000) * f * e⟩ := by
  unfold recordReply
  dsimp only
  rw [if_neg (by omega : ¬ t - t0 ≤ 0)]

/-- C4: with 4 configured chips, 4 distinct in-period replies (one per chip,
each producing a rate from an existing reference) trigger exactly one
publish whose `rawTotalHz` is the sum of the 4 computed rates (§4.2's
formula `deltaCounter / (deltaTimeMs/1000)` scaled by the two factors); a
5th reply within the new cycle does not trigger a second publish. -/
theorem cycle_completeness (f e : ℚ) (a0 a1 a2 a3 b0 b1 b2 b3 c : ℕ)
    (r0 r1 r2 r3 h0 s0 : ℚ) (med : Median) (p : ℕ) :
    let q0 : ℚ := (deltaCounter a0 b0 : ℚ) / ((100 : ℚ) / 1000) * f * e
    let q1 : ℚ := (deltaCounter a1 b1 : ℚ) / ((200 : ℚ) / 1000) * f * e
    let q2 : ℚ := (deltaCounter a2 b2 : ℚ) / ((300 : ℚ) / 1000) * f * e
    let q3 : ℚ := (deltaCounter a3 b3 : ℚ) / ((400 : ℚ) / 1000) * f * e
    let m0 : Monitor :=
      { started := true, asicCount := 4, countsPerHash := f, errata := e,
        chips := [⟨some (a0, 0), r0⟩, ⟨some (a1, 0), r1⟩,
                  ⟨some (a2, 0), r2⟩, ⟨some (a3, 0), r3⟩],
        reported := [false, false, false, false], cycleStartMs := 0,
        median := med, hashrate := h0, smoothedHashrate := s0,
        periodMs := 1000, publishes := p }
    let m4 := onRegisterReply (onRegisterReply (onRegisterReply
      (onRegisterReply m0 0 b0 100) 1 b1 200) 2 b2 300) 3 b3 400
    m4.publishes = p + 1 ∧
    m4.hashrate = q0 + (q1 + (q2 + (q3 + 0))) ∧
    (onRegisterReply m4 0 c 500).publishes = p + 1 := by
  intro q0 q1 q2 q3 m0 m4
  have s1 : onRegisterReply m0 0 b0 100 =
      { m0 with
        chips := [⟨some (b0 % 4294967296, 100), q0⟩, ⟨some (a1, 0), r1⟩,
                  ⟨some (a2, 0), r2⟩, ⟨some (a3, 0), r3⟩],
        reported := [true, false, false, false] } := by
    rw [onRegisterReply_ok m0 0 b0 100 (by norm_num) q0
      ⟨some (b0 % 4294967296, 100), q0⟩
      (by show recordReply f e ⟨some (a0, 0), r0⟩ b0 100 = _
          rw [recordReply_ok f e a0 0 r0 b0 100 (by norm_num)]
          simp only [q0]
          norm_num)]
    norm_num [noteChipRate]
  have s2 : onRegisterReply (onRegisterReply m0 0 b0 100) 1 b1 200 =
      { m0 with
        chips := [⟨some (b0 % 4294967296, 100), q0⟩, ⟨some (b1 % 4294967296, 200), q1⟩,
                  ⟨some (a2, 0), r2⟩, ⟨some (a3, 0), r3⟩],
        reported := [true, true, false, false] } := by
    rw [s1]
    rw [onRegisterReply_ok _ 1 b1 200 (by norm_num) q1
      ⟨some (b1 % 4294967296, 200), q1⟩
      (by show recordReply f e ⟨some (a1, 0), r1⟩ b1 200 = _
          rw [recordReply_ok f e a1 0 r1 b1 200 (by norm_num)]
          simp only [q1]
          norm_num)]
    norm_num [noteChipRate]
  have s3 : onRegisterReply (onRegisterReply (onRegisterReply m0 0 b0 100)
      1 b1 200) 2 b2 300 =
      { m0 with
        chips := [⟨some (b0 % 4294967296, 100), q0⟩, ⟨some (b1 % 4294967296, 200), q1⟩,
                  ⟨some (b2 % 4294967296, 300), q2⟩, ⟨some (a3, 0), r3⟩],
        reported := [true, true, true, false] } := by
    rw [s2]
    rw [onRegisterReply_ok _ 2 b2 300 (by norm_num) q2
      ⟨some (b2 % 4294967296, 300), q2⟩
      (by show recordReply f e ⟨some (a2, 0), r2⟩ b2 300 = _
          rw [recordReply_ok f e a2 0 r2 b2 300 (by norm_num)]
          simp only [q2]
          norm_num)]
    norm_num [noteChipRate]
  have s4 : m4 =
      { m0 with
        chips := [⟨some (b0 % 4294967296, 100), q0⟩, ⟨some (b1 % 4294967296, 200), q1⟩,
                  ⟨some (b2 % 4294967296, 300), q2⟩, ⟨some (b3 % 4294967296, 400), q3⟩],
        reported := [false, false, false, false],
        cycleStartMs := 400,
        median := (med.update (q0 + (q1 + (q2 + (q3 + 0))))).2,
        hashrate := q0 + (q1 + (q2 + (q3 + 0))),
        smoothedHashrate := (med.update (q0 + (q1 + (q2 + (q3 + 0))))).1,
        publishes := p + 1 } := by
    show onRegisterReply (onRegisterReply (onRegisterReply
      (onRegisterReply m0 0 b0 100) 1 b1 200) 2 b2 300) 3 b3 400 = _
    rw [s3]
    rw [onRegisterReply_ok _ 3 b3 400 (by norm_num) q3
      ⟨some (b3 % 4294967296, 400), q3⟩
      (by show recordReply f e ⟨some (a3, 0), r3⟩ b3 400 = _
          rw [recordReply_ok f e a3 0 r3 b3 400 (by norm_num)]
          simp only [q3]
          norm_num)]
    norm_num [noteChipRate, completeCycle, getTotalChipHashrate, List.replicate]
  have s5 : (onRegisterReply m4 0 c 500).publishes = p + 1 := by
    rw [s4]
    rw [onRegisterReply_ok _ 0 c 500 (by norm_num)
      ((deltaCounter (b0 % 4294967296) c : ℚ) / ((400 : ℚ) / 1000) * f * e)
      ⟨some (c % 4294967296, 500),
        (deltaCounter (b0 % 4294967296) c : ℚ) / ((400 : ℚ) / 1000) * f * e⟩
      (by show recordReply f e ⟨some (b0 % 4294967296, 100), q0⟩ c 500 = _
          rw [recordReply_ok f e (b0 % 4294967296) 100 q0 c 500 (by norm_num)]
          norm_num)]
    norm_num [noteChipRate]
  exact ⟨by rw [s4], by rw [s4], s5⟩

/-- C9: `start` fails exactly when the monitor is already started or the
configured chip count is zero, leaving the state untouched in that case;
on success it captures the chip count and scale factors, allocates
per-chip state, and reports success. -/
theorem start_spec (m : Monitor) (chipCount : ℕ) (f e : ℚ) :
    ((start m chipCount f e).1 = false ↔ (m.started = true ∨ chipCount = 0)) ∧
    ((start m chipCount f e).1 = false → (start m chipCount f e).2 = m) ∧
    ((start m chipCount f e).1 = true →
      (start m chipCount f e).2.started = true ∧
      (start m chipCount f e).2.asicCount = chipCount ∧
      (start m chipCount f e).2.countsPerHash = f ∧
      (start m chipCount f e).2.errata = e ∧
      (start m chipCount f e).2.chips.length = chipCount ∧
      (start m chipCount f e).2.publishes = 0) := by
  unfold start
  by_cases h : m.started = true ∨ chipCount = 0
  · simp [h]
  · simp [h, initialMonitor]

/-- Witness for C9: double-start fails and leaves the state unchanged. -/
theorem start_spec_witness :
    (start (initialMonitor 1 1 1) 2 3 4).1 = false ∧
    (start (initialMonitor 1 1 1) 2 3 4).2 = initialMonitor 1 1 1 :=
  ⟨(start_spec (initialMonitor 1 1 1) 2 3 4).1.mpr (Or.inl rfl),
    (start_spec (initialMonitor 1 1 1) 2 3 4).2.1
      ((start_spec (initialMonitor 1 1 1) 2 3 4).1.mpr (Or.inl rfl))⟩

/-! ## Non-negativity invariant -/

/-- The monitor invariant behind §3's non-negativity: published totals,
per-chip rates and the whole median window are non-negative, the window is
non-empty, and the captured scale factors are non-negative. -/
def Inv (m : Monitor) : Prop :=
  0 ≤ m.hashrate ∧ 0 ≤ m.smoothedHashrate ∧
  (∀ cs ∈ m.chips, 0 ≤ cs.lastRateHz) ∧
  (∀ x ∈ m.median.buf, 0 ≤ x) ∧
  0 < m.median.buf.length ∧
  0 ≤ m.countsPerHash ∧ 0 ≤ m.errata

theorem inv_initial (n : ℕ) (f e : ℚ) (hf : 0 ≤ f)
    (he : 0 ≤ e) : Inv (initialMonitor n f e) := by
  refine ⟨le_refl 0, le_refl 0, ?_, ?_, ?_, hf, he⟩
  · intro cs hcs
    rw [List.eq_of_mem_replicate hcs]
  · intro x hx
    have hx0 : x = 0 := by simpa [initialMonitor, Median.mk0] using hx
    exact le_of_eq hx0.symm
  · simp [initialMonitor, Median.mk0]

theorem getTotalChipHashrate_nonneg (m : Monitor)
    (h : ∀ cs ∈ m.chips, 0 ≤ cs.lastRateHz) : 0 ≤ getTotalChipHashrate m := by
  refine List.sum_nonneg ?_
  intro x hx
  obtain ⟨cs, hcs, rfl⟩ := List.mem_map.mp hx
  exact h cs hcs

theorem inv_completeCycle (m : Monitor) (t : ℤ) (h : Inv m) :
    Inv (completeCycle m t) := by
  obtain ⟨h1, h2, h3, h4, h5, h6, h7⟩ := h
  have hraw : 0 ≤ getTotalChipHashrate m := getTotalChipHashrate_nonneg m h3
  have hbuf : ∀ x ∈ (m.median.update (getTotalChipHashrate m)).2.buf, 0 ≤ x := by
    intro x hx
    simp only [Median.update] at hx
    rcases List.mem_or_eq_of_mem_set hx with hx | rfl
    · exact h4 x hx
    · exact hraw
  have hlen : 0 < (m.median.update (getTotalChipHashrate m)).2.buf.length := by
    simpa [Median.update] using h5
  have hsm : 0 ≤ (m.median.update (getTotalChipHashrate m)).1 :=
    hbuf _ (median_update_mem m.median (getTotalChipHashrate m) h5)
  exact ⟨hraw, hsm, h3, hbuf, hlen, h6, h7⟩

theorem inv_noteChipRate (m : Monitor) (i : ℕ) (t : ℤ) (h : Inv m) :
    Inv (noteChipRate m i t) := by
  unfold noteChipRate
  obtain ⟨h1, h2, h3, h4, h5, h6, h7⟩ := h
  dsimp only
  split
  · exact inv_completeCycle _ t ⟨h1, h2, h3, h4, h5, h6, h7⟩
  · exact ⟨h1, h2, h3, h4, h5, h6, h7⟩

theorem recordReply_noHistory_rate (f e : ℚ) (cs : ChipState) (c : ℕ)
    (t : ℤ) (st : ChipState)
    (h : recordReply f e cs c t = .noHistory st) :
    st.lastRateHz = cs.lastRateHz := by
  unfold recordReply at h
  cases href : cs.ref with
  | none =>
      rw [href] at h
      dsimp only at h
      cases h
      rfl
  | some p =>
      obtain ⟨a, t0⟩ := p
      rw [href] at h
      dsimp only at h
      split at h <;> cases h

theorem recordReply_ok_rate (f e : ℚ) (hf : 0 ≤ f) (he : 0 ≤ e)
    (cs : ChipState) (c : ℕ) (t : ℤ) (r : ℚ) (st : ChipState)
    (h : recordReply f e cs c t = .ok r st) :
    0 ≤ r ∧ st.lastRateHz = r := by
  unfold recordReply at h
  cases href : cs.ref with
  | none =>
      rw [href] at h
      dsimp only at h
      cases h
  | some p =>
      obtain ⟨a, t0⟩ := p
      rw [href] at h
      dsimp only at h
      split at h
      · cases h
      · rename_i hdt
        cases h
        refine ⟨?_, rfl⟩
        have hdt' : (0 : ℚ) < ((t - t0 : ℤ) : ℚ) := by
          exact_mod_cast lt_of_not_le (fun hc => hdt (by exact_mod_cast hc))
        have : (0 : ℚ) ≤ (deltaCounter a c : ℚ) / (((t - t0 : ℤ) : ℚ) / 1000) :=
          div_nonneg (by positivity) (by positivity)
        exact mul_nonneg (mul_nonneg this hf) he

theorem inv_onRegisterReply (m : Monitor) (i c : ℕ) (t : ℤ) (h : Inv m) :
    Inv (onRegisterReply m i c t) := by
  unfold onRegisterReply
  by_cases hi : i < m.chips.length
  · rw [dif_pos hi]
    obtain ⟨h1, h2, h3, h4, h5, h6, h7⟩ := h
    cases hr : recordReply m.countsPerHash m.errata (m.chips.get ⟨i, hi⟩) c t with
    | noHistory st =>
        refine ⟨h1, h2, ?_, h4, h5, h6, h7⟩
        intro cs hcs
        rcases List.mem_or_eq_of_mem_set hcs with hcs | rfl
        · exact h3 cs hcs
        · rw [recordReply_noHistory_rate _ _ _ _ _ _ hr]
          exact h3 _ (List.get_mem m.chips i hi)
    | nonPositiveInterval => exact ⟨h1, h2, h3, h4, h5, h6, h7⟩
    | ok r st =>
        refine inv_noteChipRate _ i t ⟨h1, h2, ?_, h4, h5, h6, h7⟩
        intro cs hcs
        rcases List.mem_or_eq_of_mem_set hcs with hcs | rfl
        · exact h3 cs hcs
        · obtain ⟨hr0, hst⟩ := recordReply_ok_rate _ _ h6 h7 _ _ _ _ _ hr
          rw [hst]
          exact hr0
  · rw [dif_neg hi]
    exact h

theorem inv_step (m : Monitor) (ev : Ev) (h : Inv m) : Inv (step m ev) := by
  cases ev with
  | reply i c t => exact inv_onRegisterReply m i c t h
  | tick t =>
      show Inv (forcedPublish m t)
      unfold forcedPublish
      split
      · exact inv_completeCycle m _ h
      · exact h

theorem inv_run (m : Monitor) (evs : List Ev) (h : Inv m) : Inv (run m evs) := by
  induction evs generalizing m with
  | nil => exact h
  | cons ev evs ih => exact ih (step m ev) (inv_step m ev h)

/-- C7: for non-negative configured scale factors, after any sequence of
intake calls and forced publishes from a freshly started monitor, the
published `rawTotalHz` and `smoothedTotalHz` are non-negative (covering in
particular every valid input sequence). -/
theorem published_totals_nonneg (n : ℕ) (f e : ℚ) (hf : 0 ≤ f)
    (he : 0 ≤ e) (evs : List Ev) :
    0 ≤ (run (initialMonitor n f e) evs).hashrate ∧
    0 ≤ (run (initialMonitor n f e) evs).smoothedHashrate := by
  obtain ⟨h1, h2, _⟩ := inv_run (initialMonitor n f e) evs (inv_initial n f e hf he)
  exact ⟨h1, h2⟩

/-- Witness for C7: one chip, both factors 1, a concrete two-reply run. -/
theorem published_totals_nonneg_witness :
    (0 : ℚ) ≤ 1 ∧
    (0 ≤ (run (initialMonitor 1 1 1)
      [Ev.reply 0 1000 0, Ev.reply 0 2000 1000]).hashrate ∧
    0 ≤ (run (initialMonitor 1 1 1)
      [Ev.reply 0 1000 0, Ev.reply 0 2000 1000]).smoothedHashrate) :=
  ⟨zero_le_one,
    published_totals_nonneg 1 1 1 zero_le_one zero_le_one
      [Ev.reply 0 1000 0, Ev.reply 0 2000 1000]⟩

/-! ## Lock usage of writers and readers

The header declares a single `pthread_mutex_t m_mutex` (line 60). The two
readers are defined inline in the header (lines 101–107); each body is a
single `return` of the published field with no `pthread_mutex_lock` /
`pthread_mutex_unlock` call. The writers' bodies are not under `src/`, so
their lock usage is modelled from the spec. Each operation is paired with
the sequence of mutex operations its body performs. -/

/-- A mutex operation on `m_mutex`. -/
inductive LockOp
  | acquire
  | release
  deriving DecidableEq, Repr

/-- Source `HashrateMonitor::getHashrate` (header lines 105–107): the body is the
single statement `return m_hashrate;`. -/
def getHashrate (m : Monitor) : ℚ := m.hashrate

/-- Mutex operations in the body of `getHashrate` (header lines 105–107):
none — the body contains no `pthread_mutex_lock`/`unlock` call. -/
def getHashrateLockOps : List LockOp := []

/-- Source `HashrateMonitor::getSmoothedTotalChipHashrate` (header lines 101–103):
the body is the single statement `return m_smoothedHashrate;`. -/
def getSmoothedTotalChipHashrate (m : Monitor) : ℚ := m.smoothedHashrate

/-- Mutex operations in the body of `getSmoothedTotalChipHashrate` (header
lines 101–103): none — the body contains no `pthread_mutex_lock`/`unlock`
call. -/
def getSmoothedTotalChipHashrateLockOps : List LockOp := []

/-- Modelled from the spec: mutex operations of `onRegisterReply`, whose
implementation is not under `src/` — §4.4: "acquire lock → … → release
lock". -/
def onRegisterReplyLockOps : List LockOp := [LockOp.acquire, LockOp.release]

/-- Modelled from the spec: mutex operations of the background task's
forced publish, whose implementation is not under `src/` — §5: writers
acquire the lock for the duration of their critical section. -/
def forcedPublishLockOps : List LockOp := [LockOp.acquire, LockOp.release]

/-- An operation is lock-protected when its body acquires the mutex. -/
def lockProtected (ops : List LockOp) : Prop := LockOp.acquire ∈ ops

instance (ops : List LockOp) : Decidable (lockProtected ops) := by
  unfold lockProtected
  infer_instance

/-- C8 counterexample: it is not the case that the two writers and the two
readers all acquire the monitor's mutex — `getHashrate`, as defined inline
in the header, performs no lock acquisition at all. -/
theorem readers_not_lock_protected :
    ¬ (lockProtected onRegisterReplyLockOps ∧
       lockProtected forcedPublishLockOps ∧
       lockProtected getHashrateLockOps ∧
       lockProtected getSmoothedTotalChipHashrateLockOps) := by
  intro h
  exact absurd h.2.2.1 (by decide)

/-- C8 (amended): the writers acquire the mutex for their critical section
(modelled from the spec, their bodies are not in the excerpt), but the two
readers `getHashrate` and `getSmoothedTotalChipHashrate` return the
published fields directly without acquiring the mutex: they are unlocked
reads, not lock-protected snapshot reads. -/
theorem lock_usage_amended :
    lockProtected onRegisterReplyLockOps ∧
    lockProtected forcedPublishLockOps ∧
    ¬ lockProtected getHashrateLockOps ∧
    ¬ lockProtected getSmoothedTotalChipHashrateLockOps := by
  refine ⟨by decide, by decide, by decide, by decide⟩

end HashrateMonitorModel

namespace HttpUtilsModel

/-! ## OTP failure rate limiting (`src/main/http_server/http_utils.cpp`)

Embedding of the static state `timestamps[RL_FAIL_LIMIT]` and
`block_exp_time` and of `isBlocked`, `rateLimit` and `validateOTP`
(lines 15–68 and 261–283). `uint64_t` millisecond timestamps are modelled
as `ℕ` values below `2^64 = 18446744073709551616`; the wrapping `uint64_t`
subtraction and addition are written with explicit `% 2^64`. The
TOTP/session check `check_otp_or_session` performs network-independent
credential validation against external state (`otp`), and enters the model
as the boolean parameter `okAuth` of `validateOTP`. -/

/-- Source `RL_FAIL_LIMIT` (line 15): allowed wrong tries in the window. -/
def RL_FAIL_LIMIT : ℕ := 5

/-- The static rate-limiter state (lines 19–20): the last
`RL_FAIL_LIMIT` failure timestamps, newest at index 0, and the block
expiry time (0 = no block). -/
structure RLState where
  timestamps : List ℕ
  blockExpTime : ℕ
  deriving DecidableEq, Repr

/-- The zero-initialized static state (lines 19–20). -/
def initialRLState : RLState := ⟨List.replicate 5 0, 0⟩

/-- Source `isBlocked` (lines 23–34): blocked iff `block_exp_time` is set and lies
strictly in the future. -/
def isBlocked (s : RLState) (ts : ℕ) : Bool :=
  s.blockExpTime ≠ 0 && ts < s.blockExpTime

/-- Source `rateLimit` (lines 37–68): clear an expired block (resetting the
failure history), rotate the newest failure timestamp into index 0, and if
the buffer holds a full window of failures whose newest-to-oldest span is
under `RL_WINDOW_SEC * 1000` ms, set the block expiry `RL_BLOCK_SEC * 1000`
ms ahead, clear the history, and report blocked (`false`).
`18446744073709551616 = 2^64`. -/
def rateLimit (s : RLState) (ts : ℕ) : Bool × RLState :=
  let s1 := if s.blockExpTime ≠ 0 ∧ s.blockExpTime ≤ ts
    then (⟨List.replicate 5 0, 0⟩ : RLState) else s
  let rotated := ts :: s1.timestamps.take 4
  if rotated.getD 4 0 ≠ 0 ∧
      (rotated.getD 0 0 + 18446744073709551616 - rotated.getD 4 0) %
        18446744073709551616 < 60000 then
    (false, ⟨List.replicate 5 0, (ts + 300000) % 18446744073709551616⟩)
  else
    (true, ⟨rotated, s1.blockExpTime⟩)

/-- Source `validateOTP` (lines 261–283): while blocked, answer 401 without
consulting the TOTP/session check; otherwise a successful check passes, and
a failed check answers 401 and records the failure via `rateLimit`.
Returns `(true, _)` for `ESP_OK` and `(false, _)` for the 401 path;
`okAuth` abstracts `check_otp_or_session`. -/
def validateOTP (s : RLState) (ts : ℕ) (okAuth : Bool) : Bool × RLState :=
  if isBlocked s ts then (false, s)
  else if okAuth then (true, s)
  else (false, (rateLimit s ts).2)

/-- A sequence of failed validation attempts at the given times, starting
from the zero-initialized static state. -/
def failStreak (times : List ℕ) : RLState :=
  times.foldl (fun s t => (validateOTP s t false).2) initialRLState

/-- While a block is active, `validateOTP` answers 401 with the state
unchanged, whatever the credential check would say. -/
theorem validateOTP_blocked (s : RLState) (ts : ℕ) (ok : Bool)
    (h : isBlocked s ts = true) : validateOTP s ts ok = (false, s) := by
  unfold validateOTP
  rw [if_pos h]

/-- C10: after 5 failed validation attempts whose newest and oldest
timestamps are less than 60 s apart, a block expiring 300 s after the 5th
failure is set; while that block is active every `validateOTP` call fails
without consulting the TOTP/session check (the outcome is the same for
every `okAuth`), and the state — in particular the block expiry — is left
unchanged, so failures during the block never extend it. Timestamps are
`uint64` millisecond values (`t1` positive, `t5 + 300000` below `2^64`). -/
theorem otp_rate_limit_blocks (t1 t2 t3 t4 t5 : ℕ) (h1 : 0 < t1)
    (h15 : t1 ≤ t5) (hwin : t5 - t1 < 60000)
    (hb : t5 + 300000 < 18446744073709551616) :
    (failStreak [t1, t2, t3, t4, t5]).blockExpTime = t5 + 300000 ∧
    ∀ now : ℕ, now < t5 + 300000 → ∀ ok : Bool,
      validateOTP (failStreak [t1, t2, t3, t4, t5]) now ok =
        (false, failStreak [t1, t2, t3, t4, t5]) := by
  have s1 : (validateOTP initialRLState t1 false).2 = ⟨[t1, 0, 0, 0, 0], 0⟩ := by
    simp [validateOTP, isBlocked, rateLimit, initialRLState]
  have s2 : (validateOTP ⟨[t1, 0, 0, 0, 0], 0⟩ t2 false).2 =
      ⟨[t2, t1, 0, 0, 0], 0⟩ := by
    simp [validateOTP, isBlocked, rateLimit]
  have s3 : (validateOTP ⟨[t2, t1, 0, 0, 0], 0⟩ t3 false).2 =
      ⟨[t3, t2, t1, 0, 0], 0⟩ := by
    simp [validateOTP, isBlocked, rateLimit]
  have s4 : (validateOTP ⟨[t3, t2, t1, 0, 0], 0⟩ t4 false).2 =
      ⟨[t4, t3, t2, t1, 0], 0⟩ := by
    simp [validateOTP, isBlocked, rateLimit]
  have hne : t1 ≠ 0 := by omega
  have hdelta : (t5 + 18446744073709551616 - t1) % 18446744073709551616 < 60000 := by
    omega
  have hmod : (t5 + 300000) % 18446744073709551616 = t5 + 300000 :=
    Nat.mod_eq_of_lt hb
  have s5 : (validateOTP ⟨[t4, t3, t2, t1, 0], 0⟩ t5 false).2 =
      ⟨List.replicate 5 0, t5 + 300000⟩ := by
    simp [validateOTP, isBlocked, rateLimit, hne, hdelta, hmod]
  have hfs : failStreak [t1, t2, t3, t4, t5] =
      ⟨List.replicate 5 0, t5 + 300000⟩ := by
    show (validateOTP (validateOTP (validateOTP (validateOTP
      (validateOTP initialRLState t1 false).2 t2 false).2 t3 false).2
      t4 false).2 t5 false).2 = _
    rw [s1, s2, s3, s4, s5]
  refine ⟨by rw [hfs], ?_⟩
  intro now hnow ok
  rw [hfs]
  have hblocked : isBlocked ⟨List.replicate 5 0, t5 + 300000⟩ now = true := by
    simp [isBlocked]
    omega
  exact validateOTP_blocked _ now ok hblocked

/-- Witness for C10: failures at 1000…5000 ms set a block expiring at
305000 ms, and a call at 6000 ms with a valid credential still fails with
the state unchanged. -/
theorem otp_rate_limit_blocks_witness :
    0 < 1000 ∧ 1000 ≤ 5000 ∧ 5000 - 1000 < 60000 ∧
    5000 + 300000 < 18446744073709551616 ∧ 6000 < 5000 + 300000 ∧
    ((failStreak [1000, 2000, 3000, 4000, 5000]).blockExpTime = 5000 + 300000 ∧
     validateOTP (failStreak [1000, 2000, 3000, 4000, 5000]) 6000 true =
       (false, failStreak [1000, 2000, 3000, 4000, 5000])) :=
  ⟨by norm_num, by norm_num, by norm_num, by norm_num, by norm_num,
    (otp_rate_limit_blocks 1000 2000 3000 4000 5000 (by norm_num) (by norm_num)
      (by norm_num) (by norm_num)).1,
    (otp_rate_limit_blocks 1000 2000 3000 4000 5000 (by norm_num) (by norm_num)
      (by norm_num) (by norm_num)).2 6000 (by norm_num) true⟩

end HttpUtilsModel
